import Mathlib

set_option maxHeartbeats 1000000

/-! Verification development for `cinema_scraper.py` (WTW Cinemas calendar
    scraper).  Python strings are modelled as `List Char`; machine `datetime`
    values are modelled explicitly (`PyDate` for dates, integers for
    monotone timestamps); fallible Python code (exceptions) is modelled with
    `Option`/`Except`.  Definitions follow the source line by line; the few
    deliberate abstractions (ASCII fragment of Unicode character classes,
    records in place of JSON dicts) are noted where they occur. -/

/-- Python strings are modelled as lists of characters. -/
abbrev Str := List Char

/-- Whitespace as recognised by Python's `str.strip` and by `\s` in the
    scraper's regular expressions (ASCII fragment; the scraper's inputs are
    ASCII). -/
def pyIsSpace (c : Char) : Bool :=
  c == ' ' || c == '\t' || c == '\n' || c == '\r' || c == '\x0b' || c == '\x0c'

/-- The character class `\d` (ASCII fragment). -/
def pyIsDigit (c : Char) : Bool := '0' ≤ c && c ≤ '9'

/-- The character class `[A-Za-z]` used by both date regexes. -/
def pyIsAlpha (c : Char) : Bool := ('A' ≤ c && c ≤ 'Z') || ('a' ≤ c && c ≤ 'z')

/-- `str.lower` (ASCII fragment). -/
def pyLower (s : Str) : Str := s.map Char.toLower

/-- `str.strip()`. -/
def pyStrip (s : Str) : Str :=
  ((s.dropWhile pyIsSpace).reverse.dropWhile pyIsSpace).reverse

/-- Python's substring test `needle in hay`. -/
def pyInStr (needle : Str) : Str → Bool
  | [] => needle.isEmpty
  | c :: rest => needle.isPrefixOf (c :: rest) || pyInStr needle rest

/-- Value of a (non-empty, all-digit) capture group under Python's `int`. -/
def natOfDigits (s : Str) : Nat :=
  s.foldl (fun n c => 10 * n + (c.toNat - '0'.toNat)) 0

/-- Python's `int(string)`: optional surrounding whitespace, an optional
    sign, then at least one digit (digit-grouping underscores are not
    modelled; none of the scraper's inputs use them). -/
def pyIntParse (s : Str) : Option Int :=
  let core : Str → Option Nat := fun u =>
    if u.isEmpty || !u.all pyIsDigit then none else some (natOfDigits u)
  match pyStrip s with
  | '-' :: rest => (core rest).map (fun n => -(n : Int))
  | '+' :: rest => (core rest).map (fun n => (n : Int))
  | u => (core u).map (fun n => (n : Int))

/-- `re.sub` of a one-or-more character-class pattern by a single character:
    every maximal run of characters satisfying `p` becomes the single
    character `rep`.  The flag records whether we are inside a run. -/
def collapseRuns (p : Char → Bool) (rep : Char) : Bool → Str → Str
  | _, [] => []
  | inRun, c :: rest =>
    if p c then
      if inRun then collapseRuns p rep true rest
      else rep :: collapseRuns p rep true rest
    else c :: collapseRuns p rep false rest

/-- Does `\s*\([^)]*\)$` match the whole of `l`?  (`\s*` can be taken
    greedily because `(` is not whitespace.) -/
def parenSuffixMatch (l : Str) : Bool :=
  match l.dropWhile pyIsSpace with
  | '(' :: rest => rest.dropWhile (fun c => c != ')') == [')']
  | _ => false

/-- Leftmost position at which the trailing-qualifier pattern matches
    (`re.search` semantics: start positions are tried left to right). -/
def parenSuffixIdx : Str → Option Nat
  | [] => none
  | c :: rest =>
    if parenSuffixMatch (c :: rest) then some 0
    else (parenSuffixIdx rest).map (· + 1)

/-- `re.sub(r"\s*\([^)]*\)$", "", s)`: any match runs to the end of the
    string, so the substitution truncates at the match position. -/
def stripParenSuffix (s : Str) : Str :=
  match parenSuffixIdx s with
  | some i => s.take i
  | none => s

/-- Assignment `d[k] = v` on a Python dict modelled as an association list
    (replaces in place, appends if the key is absent). -/
def dictSet {β : Type} : List (Str × β) → Str → β → List (Str × β)
  | [], k, v => [(k, v)]
  | (k', v') :: rest, k, v =>
    if k' = k then (k, v) :: rest else (k', v') :: dictSet rest k v

/-- `datetime.date`. -/
structure PyDate where
  year : Nat
  month : Nat
  day : Nat
deriving DecidableEq, Repr

/-- Gregorian leap-year rule (`calendar.isleap`). -/
def isLeap (y : Nat) : Bool := y % 4 == 0 && (y % 100 != 0 || y % 400 == 0)

def daysInMonth (y m : Nat) : Nat :=
  if m == 2 then (if isLeap y then 29 else 28)
  else if m == 4 || m == 6 || m == 9 || m == 11 then 30
  else 31

/-- The constructor checks of `datetime.date(year, month, day)`. -/
def validDate (y m d : Nat) : Bool :=
  1 ≤ y && y ≤ 9999 && 1 ≤ m && m ≤ 12 && 1 ≤ d && d ≤ daysInMonth y m

/-- `datetime.date(y, m, d)`, with `ValueError` modelled as `none`. -/
def mkDate (y m d : Nat) : Option PyDate :=
  if validDate y m d then some ⟨y, m, d⟩ else none

/-- `date` comparison (lexicographic on year, month, day). -/
def pdLt (a b : PyDate) : Bool :=
  a.year < b.year || (a.year == b.year && (a.month < b.month ||
    (a.month == b.month && a.day < b.day)))

def pdLe (a b : PyDate) : Bool := pdLt a b || a == b

/-- The day before a date (helper for `timedelta` subtraction on dates). -/
def predDay : PyDate → PyDate
  | ⟨y, m, d⟩ =>
    if 2 ≤ d then ⟨y, m, d - 1⟩
    else if 2 ≤ m then ⟨y, m - 1, daysInMonth y (m - 1)⟩
    else ⟨y - 1, 12, 31⟩

/-- `today - timedelta(days=n)`. -/
def subDays (d : PyDate) (n : Nat) : PyDate := Nat.iterate predDay n d

def monthNames : List (Str × Nat) :=
  [("january".data, 1), ("february".data, 2), ("march".data, 3),
   ("april".data, 4), ("may".data, 5), ("june".data, 6),
   ("july".data, 7), ("august".data, 8), ("september".data, 9),
   ("october".data, 10), ("november".data, 11), ("december".data, 12)]

/-- `datetime.datetime.strptime(month_str, "%B").month`: full English month
    names, case-insensitively, with no text left over. -/
def pyMonthLookup (s : Str) : Option Nat := monthNames.lookup (pyLower s)

/-- The literal head of `ALT_DATE_PATTERN` (line 159). -/
def altLit : Str := "Expected at WTW Cinemas from the ".data

def ordinalSuffixes : List Str := ["st".data, "nd".data, "rd".data, "th".data]

/-- `\s+([A-Za-z]+)` — the tail of `ALT_DATE_PATTERN` after the optional
    ordinal suffix; returns the captured month name.  (`\s+` can be taken
    greedily because letters are not whitespace.) -/
def altTail (t : Str) : Option Str :=
  if (t.takeWhile pyIsSpace).isEmpty then none
  else
    let r := t.dropWhile pyIsSpace
    let letters := r.takeWhile pyIsAlpha
    if letters.isEmpty then none else some letters

/-- `(?:st|nd|rd|th)?\s+([A-Za-z]+)` with regex backtracking: the optional
    group is tried first and dropped again if the rest then fails. -/
def altAfterDigits (s : Str) : Option Str :=
  match s with
  | c1 :: c2 :: rest =>
    if [c1, c2] ∈ ordinalSuffixes then
      match altTail rest with
      | some m => some m
      | none => altTail s
    else altTail s
  | _ => altTail s

/-- `(\d{1,2})(?:st|nd|rd|th)?\s+([A-Za-z]+)` at the current position: the
    day group greedily takes two digits, backtracking to one. -/
def altDigits : Str → Option (Str × Str)
  | [] => none
  | c1 :: rest1 =>
    if pyIsDigit c1 then
      match rest1 with
      | c2 :: rest2 =>
        if pyIsDigit c2 then
          match altAfterDigits rest2 with
          | some m => some ([c1, c2], m)
          | none =>
            match altAfterDigits rest1 with
            | some m => some ([c1], m)
            | none => none
        else
          match altAfterDigits rest1 with
          | some m => some ([c1], m)
          | none => none
      | [] => none
    else none

/-- `ALT_DATE_PATTERN` anchored at the current position. -/
def altMatchAt (s : Str) : Option (Str × Str) :=
  if altLit.isPrefixOf s then altDigits (s.drop altLit.length) else none

/-- `ALT_DATE_PATTERN.search`: start positions tried left to right. -/
def altSearch : Str → Option (Str × Str)
  | [] => altMatchAt []
  | c :: rest =>
    match altMatchAt (c :: rest) with
    | some r => some r
    | none => altSearch rest

/-- The literal head of `DATE_PATTERN` (line 157). -/
def dateLit : Str := "Expected:".data

/-- `\s+([A-Za-z]+)\s+(\d{4})` — the tail of `DATE_PATTERN` after the day
    group; returns the captured (month name, year digits). -/
def dateTail (t : Str) : Option (Str × Str) :=
  if (t.takeWhile pyIsSpace).isEmpty then none
  else
    let t1 := t.dropWhile pyIsSpace
    let mo := t1.takeWhile pyIsAlpha
    if mo.isEmpty then none
    else
      let t2 := t1.dropWhile pyIsAlpha
      if (t2.takeWhile pyIsSpace).isEmpty then none
      else
        match t2.dropWhile pyIsSpace with
        | y1 :: y2 :: y3 :: y4 :: _ =>
          if pyIsDigit y1 && pyIsDigit y2 && pyIsDigit y3 && pyIsDigit y4 then
            some (mo, [y1, y2, y3, y4])
          else none
        | _ => none

/-- `\s*(\d{1,2})` then `dateTail`, the day group greedily taking two
    digits and backtracking to one. -/
def dateDigits (s : Str) : Option (Str × Str × Str) :=
  match s.dropWhile pyIsSpace with
  | c1 :: rest1 =>
    if pyIsDigit c1 then
      match rest1 with
      | c2 :: rest2 =>
        if pyIsDigit c2 then
          match dateTail rest2 with
          | some (mo, yr) => some ([c1, c2], mo, yr)
          | none =>
            match dateTail rest1 with
            | some (mo, yr) => some ([c1], mo, yr)
            | none => none
        else
          match dateTail rest1 with
          | some (mo, yr) => some ([c1], mo, yr)
          | none => none
      | [] => none
    else none
  | [] => none

/-- `DATE_PATTERN` anchored at the current position. -/
def dateMatchAt (s : Str) : Option (Str × Str × Str) :=
  if dateLit.isPrefixOf s then dateDigits (s.drop dateLit.length) else none

/-- `DATE_PATTERN.search`: start positions tried left to right. -/
def dateSearch : Str → Option (Str × Str × Str)
  | [] => dateMatchAt []
  | c :: rest =>
    match dateMatchAt (c :: rest) with
    | some r => some r
    | none => dateSearch rest

/-- `parse_date` (lines 464-510).  `datetime.date.today()` is passed in as
    `today`.  The function is total: the `ValueError` branches of the source
    are the `none` cases. -/
def parse_date (text : Str) (today : PyDate) : Option PyDate :=
  let parts : Option (Nat × Str × Nat) :=
    match dateSearch text with
    | some (ds, ms, ys) => some (natOfDigits ds, ms, natOfDigits ys)
    | none =>
      match altSearch text with
      | some (ds, ms) => some (natOfDigits ds, ms, today.year)
      | none => none
  match parts with
  | none => none
  | some (day, monthStr, year) =>
    match pyMonthLookup monthStr with
    | none => none
    | some month =>
      match mkDate year month day with
      | none => none
      | some parsed =>
        if pdLt parsed today && (dateSearch text).isNone then
          mkDate (year + 1) month day
        else some parsed

def ICAL_LINE_LENGTH : Nat := 75

/-- `str.replace(old, new)` for a single-character pattern. -/
def pyReplaceChar (old : Char) (new : Str) (s : Str) : Str :=
  s.flatMap (fun c => if c == old then new else [c])

/-- The escaping step of `escape_and_fold_ical_text` (lines 737-738):
    backslashes doubled first, then newlines replaced by the literal
    two-character sequence backslash-n. -/
def icalEscape (text : Str) : Str :=
  pyReplaceChar '\n' ['\\', 'n'] (pyReplaceChar '\\' ['\\', '\\'] text)

/-- The continuation-line loop (lines 753-756): while text remains, emit a
    physical line of one space plus the next 74 characters.  The first
    argument is fuel bounding the iteration count; the loop consumes at
    least one character per iteration, so any fuel at least the length of
    the text gives the loop's behaviour. -/
def foldContAux : Nat → Str → List Str
  | _, [] => []
  | 0, _ :: _ => []
  | fuel + 1, c :: rest =>
    (' ' :: (c :: rest).take (ICAL_LINE_LENGTH - 1)) ::
      foldContAux fuel ((c :: rest).drop (ICAL_LINE_LENGTH - 1))

def foldCont (r : Str) : List Str := foldContAux r.length r

/-- The physical lines produced by `escape_and_fold_ical_text` for the
    combined line `prefix + escaped`. -/
def foldLines (fullLine : Str) : List Str :=
  if fullLine.length ≤ ICAL_LINE_LENGTH then [fullLine]
  else fullLine.take ICAL_LINE_LENGTH :: foldCont (fullLine.drop ICAL_LINE_LENGTH)

/-- `escape_and_fold_ical_text` (lines 723-758); the physical lines are
    joined with a newline as in the source's `'\n'.join(result)`. -/
def escape_and_fold_ical_text (text : Str) (pfx : Str) : Str :=
  List.intercalate ['\n'] (foldLines (pfx ++ icalEscape text))

/-- One continuation line's leading space being stripped (the unfolding
    step named by the specification). -/
def stripOneSpace : Str → Str
  | ' ' :: t => t
  | l => l

/-- Unfolding as described by the specification: split the folded output on
    its newline characters, strip the single leading space from each
    continuation line, and concatenate. -/
def icalUnfold (s : Str) : Str :=
  match s.splitOn '\n' with
  | [] => []
  | first :: rest => first ++ (rest.map stripOneSpace).flatten

/-- A cache entry as read back from JSON: an arbitrary payload plus the
    `cached_at` field (`none` models a missing key, whose default `''`
    compares as older than every cutoff).  Timestamps are modelled by
    integers: lexicographic comparison of same-format `isoformat` strings
    agrees with chronological order. -/
structure CachedEntry (α : Type) where
  payload : α
  cachedAt : Option Int
deriving DecidableEq

def CACHE_EXPIRY_DAYS : Int := 7

def TMDB_CACHE_DAYS : Int := 30

/-- Seconds per day: `timedelta(days=n)` on timestamps. -/
def secondsPerDay : Int := 86400

/-- `load_cache` (lines 176-207).  `none` for `file` models a missing,
    unreadable or corrupt store (each of the source's handlers returns
    `{}`); otherwise `data.get('cached_at', '') > cutoff` keeps an entry iff
    the field is present and strictly newer than the cutoff. -/
def load_cache {α : Type} (file : Option (List (Str × CachedEntry α)))
    (now : Int) : List (Str × CachedEntry α) :=
  match file with
  | none => []
  | some entries =>
    entries.filter (fun e =>
      match e.2.cachedAt with
      | none => false
      | some t => now - CACHE_EXPIRY_DAYS * secondsPerDay < t)

/-- `load_tmdb_cache` (lines 260-271): identical shape with the 30-day
    window. -/
def load_tmdb_cache {α : Type} (file : Option (List (Str × CachedEntry α)))
    (now : Int) : List (Str × CachedEntry α) :=
  match file with
  | none => []
  | some entries =>
    entries.filter (fun e =>
      match e.2.cachedAt with
      | none => false
      | some t => now - TMDB_CACHE_DAYS * secondsPerDay < t)

def MIN_SYNOPSIS_LENGTH : Nat := 50

def MAX_SYNOPSIS_LENGTH : Nat := 500

/-- `SYNOPSIS_SKIP_TERMS` (line 47). -/
def SYNOPSIS_SKIP_TERMS : List Str :=
  ["cookie".data, "privacy".data, "terms".data, "wheelchair".data,
   "audio description".data]

/-- `any(skip in text.lower() for skip in SYNOPSIS_SKIP_TERMS)`. -/
def hasSkipTerm (t : Str) : Bool :=
  SYNOPSIS_SKIP_TERMS.any (fun skip => pyInStr skip (pyLower t))

/-- The synopsis heuristic of `fetch_film_details` (lines 566-583):
    `paragraphs` are the stripped texts of the `<p>` elements in document
    order, `divs` those of the `<div>` elements; an unset synopsis is the
    empty string. -/
def synopsisFrom (paragraphs divs : List Str) : Str :=
  match paragraphs.find? (fun t =>
      MIN_SYNOPSIS_LENGTH < t.length && !hasSkipTerm t) with
  | some t => t
  | none =>
    match divs.find? (fun t =>
        (decide (MIN_SYNOPSIS_LENGTH < t.length) &&
         decide (t.length < MAX_SYNOPSIS_LENGTH)) && !hasSkipTerm t) with
    | some t => t
    | none => []

/-- `text.split(':', 1)[-1]`: the part after the first colon, or the whole
    string when no colon occurs. -/
def afterFirstColon (t : Str) : Str :=
  if ':' ∈ t then (t.dropWhile (fun c => c != ':')).drop 1 else t

/-- The cast heuristic of `fetch_film_details` (lines 557-564): scan the
    visible text nodes for ones containing "starring"; on such a node keep
    the text after the first colon, stripped, if non-empty and longer than 3
    characters, and stop; otherwise keep scanning. -/
def castFrom : List Str → Str
  | [] => []
  | t :: rest =>
    if pyInStr "starring".data (pyLower t) then
      let castText := pyStrip (afterFirstColon t)
      if !castText.isEmpty && decide (3 < castText.length) then castText
      else castFrom rest
    else castFrom rest

/-- What the listing extractor reads out of one `div.times` element and its
    enclosing `li` (lines 625-653): whether the div has a parent, the
    stripped `h2` text if any, the stripped text of the first `p` inside the
    div if any, and the `href` of the first `/film/` link (`""` if none). -/
structure ListingEntry where
  hasParent : Bool
  titleText : Option Str
  dateText : Option Str
  filmUrl : Str

structure FilmDetails where
  runtime : Str
  cast : Str
  synopsis : Str
  director : Str
deriving DecidableEq

/-- One record of the list built by `extract_films`. -/
structure ReleaseRecord where
  releaseDate : PyDate
  title : Str
  cinemaName : Str
  filmUrl : Str
  details : FilmDetails
deriving DecidableEq

/-- The identity tuple `(f[0], f[1], f[2], f[3])` used by the duplicate
    check (line 661). -/
def recordKey (r : ReleaseRecord) : PyDate × Str × Str × Str :=
  (r.releaseDate, r.title, r.cinemaName, r.filmUrl)

/-- The per-entry processing of `extract_films` (lines 625-657) up to the
    duplicate check.  `detailsOf` stands for `fetch_film_details`, a pure
    function of the url here (the cache threading does not affect which
    records are produced). -/
def candidateOf (cinemaName : Str) (today : PyDate)
    (detailsOf : Str → FilmDetails) (e : ListingEntry) :
    Option ReleaseRecord :=
  if !e.hasParent then none
  else match e.titleText with
  | none => none
  | some rawTitle =>
    let title := stripParenSuffix rawTitle
    match e.dateText with
    | none => none
    | some dt =>
      match parse_date dt today with
      | none => none
      | some releaseDate =>
        if title.isEmpty then none
        else some ⟨releaseDate, title, cinemaName, e.filmUrl,
                   detailsOf e.filmUrl⟩

/-- The accumulation loop of `extract_films` (lines 625-665), including the
    duplicate check against the records accumulated so far. -/
def extractLoop (cinemaName : Str) (today : PyDate)
    (detailsOf : Str → FilmDetails) :
    List ListingEntry → List ReleaseRecord → List ReleaseRecord
  | [], films => films
  | e :: rest, films =>
    match candidateOf cinemaName today detailsOf e with
    | none => extractLoop cinemaName today detailsOf rest films
    | some r =>
      if recordKey r ∈ films.map recordKey then
        extractLoop cinemaName today detailsOf rest films
      else extractLoop cinemaName today detailsOf rest (films ++ [r])

/-- `extract_films` (lines 600-665) with the fetched-and-parsed listing
    entries as input. -/
def extract_films (entries : List ListingEntry) (cinemaName : Str)
    (today : PyDate) (detailsOf : Str → FilmDetails) : List ReleaseRecord :=
  extractLoop cinemaName today detailsOf entries []

/-- Specification-side deduplication: keep the first record bearing each
    identity tuple. -/
def dedupKeepFirst (seen : List (PyDate × Str × Str × Str)) :
    List ReleaseRecord → List ReleaseRecord
  | [] => []
  | r :: rest =>
    if recordKey r ∈ seen then dedupKeepFirst seen rest
    else r :: dedupKeepFirst (seen ++ [recordKey r]) rest

/-- The five statistics counters of `main` (lines 1580-1592). -/
structure ReleaseStats where
  past30Days : Nat
  ytdPast : Nat
  thisMonth : Nat
  thisYear : Nat
  totalUpcoming : Nat
deriving DecidableEq

/-- Lines 1580-1592 of `main`: `films` is `all_films` (only the date and
    title fields are read), `historyLoaded` the set loaded from the
    release-history file. -/
def release_stats (films : List ReleaseRecord)
    (historyLoaded : Finset (PyDate × Str)) (today : PyDate) : ReleaseStats :=
  let uniqueReleases : Finset (PyDate × Str) :=
    (films.map (fun f => (f.releaseDate, f.title))).toFinset
  let history := historyLoaded ∪ uniqueReleases
  let pastCutoff30 := subDays today 30
  { past30Days := (history.filter
      (fun p => pdLe pastCutoff30 p.1 ∧ pdLe p.1 today)).card,
    ytdPast := (history.filter
      (fun p => p.1.year = today.year ∧ pdLt p.1 today)).card,
    thisMonth := (uniqueReleases.filter
      (fun p => p.1.year = today.year ∧ p.1.month = today.month ∧
        pdLe today p.1)).card,
    thisYear := (uniqueReleases.filter
      (fun p => p.1.year = today.year ∧ pdLe today p.1)).card,
    totalUpcoming := (uniqueReleases.filter (fun p => pdLe today p.1)).card }

/-- One entry of the `results` list returned by the TMDb search endpoint,
    restricted to the fields the scraper reads.  JSON dicts are modelled as
    records, missing keys as `none`; IEEE floats (`vote_average`) are
    modelled as rationals — no arithmetic is performed on them on the paths
    modelled here. -/
structure TmdbResult where
  title : Option Str
  release_date : Option Str
  id : Option Int
  genre_ids : Option (List Int)
deriving DecidableEq

structure CrewMember where
  job : Option Str
  name : Option Str
deriving DecidableEq

structure CastMember where
  name : Option Str
deriving DecidableEq

structure TmdbCredits where
  crew : Option (List CrewMember)
  cast : Option (List CastMember)
deriving DecidableEq

structure GenreObj where
  name : Option Str
deriving DecidableEq

/-- The movie-detail JSON as read by the scraper. -/
structure TmdbMovie where
  genres : Option (List GenreObj)
  genre_ids : Option (List Int)
  overview : Option Str
  vote_average : Option Rat
  credits : Option TmdbCredits
deriving DecidableEq

/-- The five-field enrichment dictionary returned on success; the failure
    return `{}` is modelled as `none` at the call sites. -/
structure Enrichment where
  overview : Str
  genres : List Str
  vote_average : Option Rat
  director : Str
  cast : Str
deriving DecidableEq

/-- An entry of the TMDb cache as read back through `.get` (missing keys
    are `none`). -/
structure TmdbCacheEntry where
  overview : Option Str
  genres : Option (List Str)
  vote_average : Option Rat
  director : Option Str
  cast : Option Str
  cached_at : Option Int
deriving DecidableEq

abbrev TmdbCache := List (Str × TmdbCacheEntry)

/-- `_tmdb_cache_key` (lines 283-287). -/
def tmdb_cache_key (filmTitle : Str) : Str :=
  let t1 := pyStrip (stripParenSuffix filmTitle)
  let t2 := pyStrip (collapseRuns
    (fun c => pyIsSpace c || c == '-' || c == ':') ' ' false (pyLower t1))
  let t3 := collapseRuns
    (fun c => !(('a' ≤ c && c ≤ 'z') || ('0' ≤ c && c ≤ '9'))) '-' false t2
  let t4 := ((t3.dropWhile (· == '-')).reverse.dropWhile (· == '-')).reverse
  if t4.isEmpty then "unknown".data else t4

/-- `_normalize_title_for_match` (lines 290-294). -/
def normalize_title_for_match (title : Str) : Str :=
  if title.isEmpty then []
  else pyStrip (collapseRuns
    (fun c => pyIsSpace c || c == '-' || c == ':') ' ' false (pyLower title))

/-- The score computation for one non-exact candidate (lines 311-322):
    substring containment first, then the release-year recency heuristic
    with `ValueError` from `int` scoring 10. -/
def tmdbScore (normSearch normTitle : Str) (r : TmdbResult) : Int :=
  if pyInStr normSearch normTitle then 90
  else if pyInStr normTitle normSearch then 30
  else
    let release := (r.release_date.getD []).take 4
    let yr : Option Int := if release.isEmpty then some 0
      else pyIntParse release
    match yr with
    | some year => if year ≥ 2020 then 50 else 10
    | none => 10

/-- The candidate loop of `_pick_best_tmdb_result` (lines 304-326),
    carrying `best` and `best_score`; an exact normalized-title match
    returns immediately. -/
def pickBestLoop (normSearch : Str) :
    List TmdbResult → Option TmdbResult → Int → Option TmdbResult
  | [], best, _ => best
  | r :: rest, best, bestScore =>
    let title := pyStrip (r.title.getD [])
    let normTitle := normalize_title_for_match title
    if normTitle = normSearch then some r
    else
      let score := tmdbScore normSearch normTitle r
      if score > bestScore then pickBestLoop normSearch rest (some r) score
      else pickBestLoop normSearch rest best bestScore

/-- `_pick_best_tmdb_result` (lines 297-326). -/
def pick_best_tmdb_result (results : List TmdbResult) (searchTitle : Str) :
    Option TmdbResult :=
  if results.isEmpty || searchTitle.isEmpty then results.head?
  else
    let normSearch := normalize_title_for_match searchTitle
    if normSearch.isEmpty then results.head?
    else
      match pickBestLoop normSearch results none (-1) with
      | some r => some r
      | none => results.head?

/-- `GENRE_MAP` (lines 386-391). -/
def GENRE_MAP : List (Int × Str) :=
  [(28, "Action".data), (12, "Adventure".data), (16, "Animation".data),
   (35, "Comedy".data), (80, "Crime".data), (99, "Documentary".data),
   (18, "Drama".data), (10751, "Family".data), (14, "Fantasy".data),
   (36, "History".data), (27, "Horror".data), (10402, "Music".data),
   (9648, "Mystery".data), (10749, "Romance".data),
   (878, "Science Fiction".data), (10770, "TV Movie".data),
   (53, "Thriller".data), (10752, "War".data), (37, "Western".data)]

/-- The director-name loop (lines 401-406): crew members whose stripped job
    is "Director", names stripped, de-duplicated, in order. -/
def collectDirectors : List CrewMember → List Str → List Str
  | [], acc => acc
  | c :: rest, acc =>
    if pyStrip (c.job.getD []) = "Director".data then
      let name := pyStrip (c.name.getD [])
      if name ≠ [] ∧ name ∉ acc then
        collectDirectors rest (acc ++ [name])
      else collectDirectors rest acc
    else collectDirectors rest acc

/-- The cast-name loop (lines 408-412): first six credited entries, names
    stripped, empty ones skipped. -/
def collectCastNames (cs : List CastMember) : List Str :=
  (cs.take 6).filterMap (fun c =>
    let name := pyStrip (c.name.getD [])
    if name.isEmpty then none else some name)

/-- The empty entry cached on failure (lines 366 and 426). -/
def emptyTmdbEntry (now : Int) : TmdbCacheEntry :=
  ⟨some [], some [], none, some [], some [], some now⟩

/-- The dictionary returned on a cache hit (lines 344-351); `x or ""` and
    `x or []` coalesce a missing or falsy field. -/
def tmdbEntryView (e : TmdbCacheEntry) : Enrichment :=
  ⟨e.overview.getD [], e.genres.getD [], e.vote_average,
   e.director.getD [], e.cast.getD []⟩

/-- The success processing of the detail response (lines 386-421). -/
def tmdbOut (chosen : TmdbResult) (movie : TmdbMovie) : Enrichment :=
  let genreList := movie.genres.getD []
  let genres1 := genreList.filterMap (fun g =>
    match g.name with
    | none => none
    | some n => if n.isEmpty then none else some (pyStrip n))
  let genres :=
    if genres1.isEmpty then
      let gids : List Int :=
        match movie.genre_ids with
        | some (g :: gs) => g :: gs
        | _ =>
          match chosen.genre_ids with
          | some (g :: gs) => g :: gs
          | _ => []
      gids.filterMap (fun g => GENRE_MAP.lookup g)
    else genres1
  let overview := pyStrip (movie.overview.getD [])
  let credits := movie.credits.getD ⟨none, none⟩
  let directors := collectDirectors (credits.crew.getD []) []
  let directorStr := List.intercalate ", ".data (directors.take 3)
  let castStr :=
    List.intercalate ", ".data (collectCastNames (credits.cast.getD []))
  ⟨overview, genres, movie.vote_average, directorStr, castStr⟩

/-- The cache entry `{**out, "cached_at": ...}` written on success
    (line 422). -/
def tmdbEntryOf (out : Enrichment) (now : Int) : TmdbCacheEntry :=
  ⟨some out.overview, some out.genres, out.vote_average, some out.director,
   some out.cast, some now⟩

/-- `enrich_film_tmdb` (lines 329-427).  Network effects are passed in:
    `searchResp` models the search request and JSON decode (`.error` for
    any raised exception, `.ok` for the decoded `data.get("results")`
    field) and `detailResp` likewise models the detail request.  The result
    is (the function's return value, the cache after the call); the failure
    return `{}` is `none`. -/
def enrich_film_tmdb (filmTitle : Str) (cache : TmdbCache)
    (searchResp : Except Unit (Option (List TmdbResult)))
    (detailResp : Except Unit TmdbMovie) (now : Int) :
    Option Enrichment × TmdbCache :=
  let searchTitle := pyStrip (stripParenSuffix filmTitle)
  if searchTitle.isEmpty then (none, cache)
  else
    let cacheKey := tmdb_cache_key filmTitle
    match cache.lookup cacheKey with
    | some entry => (some (tmdbEntryView entry), cache)
    | none =>
      match searchResp with
      | .error _ => (none, dictSet cache cacheKey (emptyTmdbEntry now))
      | .ok resultsOpt =>
        let results := resultsOpt.getD []
        if results.isEmpty then
          (none, dictSet cache cacheKey (emptyTmdbEntry now))
        else
          match pick_best_tmdb_result results searchTitle with
          | none => (none, cache)
          | some chosen =>
            if chosen.id = none ∨ chosen.id = some 0 then (none, cache)
            else
              match detailResp with
              | .error _ =>
                (none, dictSet cache cacheKey (emptyTmdbEntry now))
              | .ok movie =>
                let out := tmdbOut chosen movie
                (some out, dictSet cache cacheKey (tmdbEntryOf out now))

theorem find?_append_of_none {α : Type} (p : α → Bool) (pre rest : List α)
    (hpre : ∀ x ∈ pre, p x = false) :
    (pre ++ rest).find? p = rest.find? p := by
  induction pre with
  | nil => rfl
  | cons a l ih =>
    rw [List.cons_append,
      List.find?_cons_of_neg _ (by simp [hpre a (by simp)])]
    exact ih (fun x hx => hpre x (by simp [hx]))

/-- C1 (amended): when no paragraph qualifies, the fallback scan over
    `<div>` container texts accepts the first block whose length is
    strictly between 50 and 500 characters and which passes the SAME
    five-term denylist as the paragraph scan (cookie, privacy, terms,
    wheelchair, audio description) — the source reuses
    `SYNOPSIS_SKIP_TERMS` in both loops, so the fallback denylist is not
    the narrower three-term one the claim describes. -/
theorem C1_fallback_same_denylist (paragraphs pre post : List Str) (t : Str)
    (hp : ∀ x ∈ paragraphs,
      (decide (MIN_SYNOPSIS_LENGTH < x.length) && !hasSkipTerm x) = false)
    (hpre : ∀ x ∈ pre,
      ((decide (MIN_SYNOPSIS_LENGTH < x.length) &&
        decide (x.length < MAX_SYNOPSIS_LENGTH)) && !hasSkipTerm x) = false)
    (h1 : MIN_SYNOPSIS_LENGTH < t.length)
    (h2 : t.length < MAX_SYNOPSIS_LENGTH)
    (h3 : hasSkipTerm t = false) :
    synopsisFrom paragraphs (pre ++ t :: post) = t := by
  have hfp : paragraphs.find?
      (fun x => decide (MIN_SYNOPSIS_LENGTH < x.length) && !hasSkipTerm x) =
      none :=
    List.find?_eq_none.mpr (fun x hx hpx => by
      rw [hp x hx] at hpx; exact Bool.false_ne_true hpx)
  have hrest : (pre ++ t :: post).find? (fun x =>
      (decide (MIN_SYNOPSIS_LENGTH < x.length) &&
       decide (x.length < MAX_SYNOPSIS_LENGTH)) && !hasSkipTerm x) = some t := by
    rw [find?_append_of_none _ pre _ hpre]
    apply List.find?_cons_of_pos
    simp [h1, h2, h3]
  unfold synopsisFrom
  rw [hfp, hrest]

/-- C1 counterexample: a container block qualifying under the claim's
    narrower denylist (length strictly between 50 and 500, containing
    "wheelchair" but none of cookie/privacy/terms) is NOT accepted as the
    synopsis — the code's fallback filters with the full denylist and
    leaves the synopsis empty. -/
theorem C1_counterexample :
    (MIN_SYNOPSIS_LENGTH <
      "This screening offers wheelchair access throughout the auditorium.".length ∧
     "This screening offers wheelchair access throughout the auditorium.".length <
      MAX_SYNOPSIS_LENGTH) ∧
    pyInStr "wheelchair".data
      (pyLower "This screening offers wheelchair access throughout the auditorium.".data) = true ∧
    pyInStr "cookie".data
      (pyLower "This screening offers wheelchair access throughout the auditorium.".data) = false ∧
    pyInStr "privacy".data
      (pyLower "This screening offers wheelchair access throughout the auditorium.".data) = false ∧
    pyInStr "terms".data
      (pyLower "This screening offers wheelchair access throughout the auditorium.".data) = false ∧
    synopsisFrom []
      ["This screening offers wheelchair access throughout the auditorium.".data] = [] := by
  decide

/-- Witness for `C1_fallback_same_denylist` at a concrete page: no
    paragraphs, one qualifying container block, accepted verbatim. -/
theorem C1_witness :
    synopsisFrom []
      ["A young inventor builds a machine that changes the fate of an entire city.".data] =
    "A young inventor builds a machine that changes the fate of an entire city.".data :=
  C1_fallback_same_denylist [] [] []
    "A young inventor builds a machine that changes the fate of an entire city.".data
    (by simp) (by simp) (by decide) (by decide) (by decide)

theorem castFrom_append_of_none (pre rest : List Str)
    (h : ∀ x ∈ pre, pyInStr "starring".data (pyLower x) = false) :
    castFrom (pre ++ rest) = castFrom rest := by
  induction pre with
  | nil => rfl
  | cons a l ih =>
    rw [List.cons_append]
    have step : castFrom (a :: (l ++ rest)) = castFrom (l ++ rest) := by
      simp only [castFrom]
      rw [h a (by simp)]
      simp
    rw [step]
    exact ih (fun x hx => h x (by simp [hx]))

/-- C10 (confirmed): when the first visible text node containing
    "starring" has no colon, `split(':', 1)[-1]` is the whole node, so the
    entire node (trimmed) is stored as the cast field provided its length
    exceeds 3 characters. -/
theorem C10_cast_without_colon (pre post : List Str) (t : Str)
    (hpre : ∀ x ∈ pre, pyInStr "starring".data (pyLower x) = false)
    (ht : pyInStr "starring".data (pyLower t) = true)
    (hcolon : ':' ∉ t)
    (hlen : 3 < (pyStrip t).length) :
    castFrom (pre ++ t :: post) = pyStrip t := by
  rw [castFrom_append_of_none pre _ hpre]
  have hne : (pyStrip t).isEmpty = false := by
    rcases h : pyStrip t with _ | ⟨c, l⟩
    · rw [h] at hlen; simp at hlen
    · rfl
  simp [castFrom, afterFirstColon, ht, hcolon, hne, hlen]

/-- Witness for `C10_cast_without_colon` at a concrete detail page. -/
theorem C10_witness :
    castFrom ["Now showing".data, "Starring Jane Doe and John Roe".data] =
    "Starring Jane Doe and John Roe".data :=
  C10_cast_without_colon ["Now showing".data] []
    "Starring Jane Doe and John Roe".data
    (by intro x hx; simp at hx; subst hx; decide)
    (by decide) (by decide) (by decide)

/-- C5 (confirmed): `parse_date` returns `none` — never an exception; the
    model is a total function, the source's `ValueError` handlers being the
    `none` branches — whenever the matched month name is not a recognized
    full English month name (the `∀ m ∈ pyMonthLookup ms` hypothesis is
    vacuous) and whenever the day/month/year combination is not a valid
    calendar date (the hypothesis demands the date construction fail). -/
theorem C5_unrecognized_or_invalid (text : Str) (today : PyDate)
    (h : (∃ ds ms ys, dateSearch text = some (ds, ms, ys) ∧
            ∀ m ∈ pyMonthLookup ms,
              mkDate (natOfDigits ys) m (natOfDigits ds) = none) ∨
         (dateSearch text = none ∧ ∃ ds ms, altSearch text = some (ds, ms) ∧
            ∀ m ∈ pyMonthLookup ms,
              mkDate today.year m (natOfDigits ds) = none)) :
    parse_date text today = none := by
  rcases h with ⟨ds, ms, ys, hsearch, hrest⟩ | ⟨hnone, ds, ms, hsearch, hrest⟩
  · simp only [parse_date, hsearch]
    cases hm : pyMonthLookup ms with
    | none => simp
    | some m => simp [hrest m (Option.mem_def.mpr hm)]
  · simp only [parse_date, hnone, hsearch]
    cases hm : pyMonthLookup ms with
    | none => simp
    | some m => simp [hrest m (Option.mem_def.mpr hm)]

/-- Witness for `C5_unrecognized_or_invalid`: "31 June" is day 31 in a
    30-day month. -/
theorem C5_witness :
    dateSearch "Expected: 31 June 2025".data =
      some ("31".data, "June".data, "2025".data) ∧
    parse_date "Expected: 31 June 2025".data ⟨2025, 1, 1⟩ = none :=
  ⟨by decide, C5_unrecognized_or_invalid _ _ (Or.inl
    ⟨"31".data, "June".data, "2025".data, by decide, by decide⟩)⟩

/-- C6 (confirmed): every entry present in the map returned by a cache load
    is fresh — its `cached_at` timestamp is strictly newer than the load
    time minus the tier's expiry window (7 days for the detail cache, 30
    days for the enrichment cache); missing or corrupt stores degrade to
    the empty map, so no caller observes an older entry. -/
theorem C6_load_cache_fresh {α : Type}
    (file : Option (List (Str × CachedEntry α))) (now : Int) (k : Str)
    (e : CachedEntry α) :
    ((k, e) ∈ load_cache file now →
      ∃ t, e.cachedAt = some t ∧
        now - CACHE_EXPIRY_DAYS * secondsPerDay < t) ∧
    ((k, e) ∈ load_tmdb_cache file now →
      ∃ t, e.cachedAt = some t ∧
        now - TMDB_CACHE_DAYS * secondsPerDay < t) := by
  constructor
  · intro hmem
    cases file with
    | none => simp [load_cache] at hmem
    | some entries =>
      simp only [load_cache] at hmem
      have hc := (List.mem_filter.mp hmem).2
      cases he : e.cachedAt with
      | none => rw [he] at hc; simp at hc
      | some t =>
        rw [he] at hc
        simp only [decide_eq_true_eq] at hc
        exact ⟨t, rfl, hc⟩
  · intro hmem
    cases file with
    | none => simp [load_tmdb_cache] at hmem
    | some entries =>
      simp only [load_tmdb_cache] at hmem
      have hc := (List.mem_filter.mp hmem).2
      cases he : e.cachedAt with
      | none => rw [he] at hc; simp at hc
      | some t =>
        rw [he] at hc
        simp only [decide_eq_true_eq] at hc
        exact ⟨t, rfl, hc⟩

/-- Witness for `C6_load_cache_fresh`: a kept entry's timestamp is inside
    the window. -/
theorem C6_witness :
    ∃ t, (⟨(), some 100⟩ : CachedEntry Unit).cachedAt = some t ∧
      (100 : Int) - CACHE_EXPIRY_DAYS * secondsPerDay < t :=
  (C6_load_cache_fresh (some [("k".data, ⟨(), some 100⟩)]) 100 "k".data
    ⟨(), some 100⟩).1 (by decide)

/-- C8 (confirmed): all five statistics counters are computed over unique
    (release_date, title) pairs: adding a record whose pair already occurs
    (the same film and date at another venue) leaves every counter
    unchanged. -/
theorem C8_stats_count_unique (films : List ReleaseRecord)
    (extra : ReleaseRecord) (hist : Finset (PyDate × Str)) (today : PyDate)
    (h : (extra.releaseDate, extra.title) ∈
      films.map (fun f => (f.releaseDate, f.title))) :
    release_stats (extra :: films) hist today =
      release_stats films hist today := by
  unfold release_stats
  have hs : ((extra :: films).map
      (fun f => (f.releaseDate, f.title))).toFinset =
      (films.map (fun f => (f.releaseDate, f.title))).toFinset := by
    simp only [List.map_cons, List.toFinset_cons]
    rw [Finset.insert_eq_self]
    exact List.mem_toFinset.mpr h
  rw [hs]

/-- Witness for `C8_stats_count_unique`: the same film and date at two
    venues counts as at one. -/
theorem C8_witness :
    release_stats
      [⟨⟨2025, 10, 10⟩, "Film".data, "Truro".data, [], ⟨[], [], [], []⟩⟩,
       ⟨⟨2025, 10, 10⟩, "Film".data, "Newquay".data, [], ⟨[], [], [], []⟩⟩]
      ∅ ⟨2025, 10, 1⟩ =
    release_stats
      [⟨⟨2025, 10, 10⟩, "Film".data, "Newquay".data, [], ⟨[], [], [], []⟩⟩]
      ∅ ⟨2025, 10, 1⟩ :=
  C8_stats_count_unique _ _ _ _ (by decide)

theorem lookup_dictSet {β : Type} (l : List (Str × β)) (k : Str) (v : β) :
    (dictSet l k v).lookup k = some v := by
  induction l with
  | nil => simp [dictSet, List.lookup]
  | cons p rest ih =>
    obtain ⟨k', v'⟩ := p
    by_cases h : k' = k
    · subst h
      simp [dictSet, List.lookup]
    · have hkk : (k == k') = false := beq_eq_false_iff_ne.mpr (Ne.symm h)
      simp [dictSet, h, List.lookup, hkk, ih]

/-- C2 (amended): enrichment failures caused by a raised request exception,
    by an empty search-result list, or by a failing detail request return
    an empty enrichment AND cache an empty entry (with a `cached_at`
    timestamp) under the title's slug key — which subsequent lookups then
    hit; but a selected candidate with no usable id returns an empty
    enrichment WITHOUT writing any cache entry, so that failure is
    re-attempted by the next call for the same title. -/
theorem C2_failure_caching (filmTitle : Str) (cache : TmdbCache)
    (searchResp : Except Unit (Option (List TmdbResult)))
    (detailResp : Except Unit TmdbMovie) (now : Int)
    (hst : pyStrip (stripParenSuffix filmTitle) ≠ [])
    (hmiss : cache.lookup (tmdb_cache_key filmTitle) = none) :
    (searchResp = Except.error () →
      enrich_film_tmdb filmTitle cache searchResp detailResp now =
        (none, dictSet cache (tmdb_cache_key filmTitle) (emptyTmdbEntry now))) ∧
    (∀ ro, searchResp = Except.ok ro → ro.getD [] = [] →
      enrich_film_tmdb filmTitle cache searchResp detailResp now =
        (none, dictSet cache (tmdb_cache_key filmTitle) (emptyTmdbEntry now))) ∧
    (∀ ro chosen, searchResp = Except.ok ro → ro.getD [] ≠ [] →
      pick_best_tmdb_result (ro.getD [])
        (pyStrip (stripParenSuffix filmTitle)) = some chosen →
      (chosen.id = none ∨ chosen.id = some 0) →
      enrich_film_tmdb filmTitle cache searchResp detailResp now =
        (none, cache)) ∧
    (∀ ro chosen, searchResp = Except.ok ro → ro.getD [] ≠ [] →
      pick_best_tmdb_result (ro.getD [])
        (pyStrip (stripParenSuffix filmTitle)) = some chosen →
      ¬(chosen.id = none ∨ chosen.id = some 0) →
      detailResp = Except.error () →
      enrich_film_tmdb filmTitle cache searchResp detailResp now =
        (none, dictSet cache (tmdb_cache_key filmTitle) (emptyTmdbEntry now))) ∧
    (dictSet cache (tmdb_cache_key filmTitle) (emptyTmdbEntry now)).lookup
      (tmdb_cache_key filmTitle) = some (emptyTmdbEntry now) := by
  have hstB : (pyStrip (stripParenSuffix filmTitle)).isEmpty = false := by
    cases hx : pyStrip (stripParenSuffix filmTitle) with
    | nil => exact absurd hx hst
    | cons a l => rfl
  refine ⟨?_, ?_, ?_, ?_, lookup_dictSet cache _ _⟩
  · rintro rfl
    simp [enrich_film_tmdb, hstB, hmiss]
  · rintro ro rfl hro
    simp [enrich_film_tmdb, hstB, hmiss, hro]
  · rintro ro chosen rfl hro hpick hid
    have hroB : (ro.getD []).isEmpty = false := by
      cases hx : ro.getD [] with
      | nil => exact absurd hx hro
      | cons a l => rfl
    simp [enrich_film_tmdb, hstB, hmiss, hroB, hpick, hid]
  · rintro ro chosen rfl hro hpick hid rfl
    have hroB : (ro.getD []).isEmpty = false := by
      cases hx : ro.getD [] with
      | nil => exact absurd hx hro
      | cons a l => rfl
    simp [enrich_film_tmdb, hstB, hmiss, hroB, hpick, hid]

/-- C2 counterexample: an enrichment failure of the "selected candidate has
    no usable id" kind (the chosen search result lacks an `id` field)
    returns an empty enrichment but writes NO entry under the title's slug
    key — a later call for the same title misses the cache and queries
    again, contrary to the claim. -/
theorem C2_counterexample :
    enrich_film_tmdb "Up".data []
      (Except.ok (some [⟨some "Up".data, none, none, none⟩]))
      (Except.error ()) 0 = (none, []) ∧
    (enrich_film_tmdb "Up".data []
      (Except.ok (some [⟨some "Up".data, none, none, none⟩]))
      (Except.error ()) 0).2.lookup (tmdb_cache_key "Up".data) = none := by
  decide

/-- Witness for `C2_failure_caching`: an empty search-result list caches an
    empty entry under the slug key. -/
theorem C2_witness :
    enrich_film_tmdb "Up".data [] (Except.ok (some [])) (Except.error ()) 7 =
      (none, dictSet [] (tmdb_cache_key "Up".data) (emptyTmdbEntry 7)) :=
  ((C2_failure_caching "Up".data [] (Except.ok (some []))
    (Except.error ()) 7 (by decide) (by decide)).2.1) (some []) rfl (by decide)

theorem extractLoop_eq_dedup (cn : Str) (today : PyDate)
    (detailsOf : Str → FilmDetails) :
    ∀ (entries : List ListingEntry) (films : List ReleaseRecord),
    extractLoop cn today detailsOf entries films =
      films ++ dedupKeepFirst (films.map recordKey)
        (entries.filterMap (candidateOf cn today detailsOf)) := by
  intro entries
  induction entries with
  | nil => intro films; simp [extractLoop, dedupKeepFirst]
  | cons e rest ih =>
    intro films
    cases hc : candidateOf cn today detailsOf e with
    | none => simp [extractLoop, hc, List.filterMap_cons, ih]
    | some r =>
      by_cases hmem : recordKey r ∈ films.map recordKey
      · simp [extractLoop, hc, hmem, List.filterMap_cons, ih, dedupKeepFirst]
      · simp only [extractLoop, hc, List.filterMap_cons]
        rw [if_neg hmem, ih (films ++ [r])]
        simp only [dedupKeepFirst, if_neg hmem]
        simp [List.map_append, List.append_assoc]

theorem dedupKeepFirst_key_spec (l : List ReleaseRecord) : ∀ seen,
    (∀ r ∈ dedupKeepFirst seen l, recordKey r ∉ seen) ∧
    (dedupKeepFirst seen l).Pairwise
      (fun a b => recordKey a ≠ recordKey b) := by
  induction l with
  | nil => intro seen; simp [dedupKeepFirst]
  | cons r rest ih =>
    intro seen
    by_cases hmem : recordKey r ∈ seen
    · simp only [dedupKeepFirst, if_pos hmem]
      exact ih seen
    · simp only [dedupKeepFirst, if_neg hmem]
      obtain ⟨ihmem, ihpw⟩ := ih (seen ++ [recordKey r])
      constructor
      · intro x hx
        rcases List.mem_cons.mp hx with rfl | hx'
        · exact hmem
        · intro hxseen
          exact ihmem x hx' (by simp [hxseen])
      · rw [List.pairwise_cons]
        refine ⟨?_, ihpw⟩
        intro b hb hkey
        exact ihmem b hb (by simp [hkey])

/-- C7 (confirmed): the record list of one listing pass equals the
    first-seen deduplication of the per-entry candidates, and its identity
    tuples (release_date, title, venue, url) are pairwise distinct — two
    listing entries resolving to the same tuple produce exactly one record,
    the first-seen one. -/
theorem C7_listing_dedup (entries : List ListingEntry) (cn : Str)
    (today : PyDate) (detailsOf : Str → FilmDetails) :
    extract_films entries cn today detailsOf =
      dedupKeepFirst [] (entries.filterMap (candidateOf cn today detailsOf)) ∧
    (extract_films entries cn today detailsOf).Pairwise
      (fun a b => recordKey a ≠ recordKey b) := by
  have he : extract_films entries cn today detailsOf =
      dedupKeepFirst []
        (entries.filterMap (candidateOf cn today detailsOf)) := by
    have h := extractLoop_eq_dedup cn today detailsOf entries []
    simpa [extract_films] using h
  exact ⟨he, he ▸ (dedupKeepFirst_key_spec _ []).2⟩

theorem icalEscape_no_newline (text : Str) : '\n' ∉ icalEscape text := by
  intro hmem
  simp only [icalEscape, pyReplaceChar, List.mem_flatMap] at hmem
  obtain ⟨c, _, hmem2⟩ := hmem
  by_cases h : (c == '\n') = true
  · rw [if_pos h] at hmem2
    rcases List.mem_cons.mp hmem2 with h1 | h1
    · exact absurd h1 (by decide)
    · exact absurd (List.mem_singleton.mp h1) (by decide)
  · rw [if_neg h] at hmem2
    rw [List.mem_singleton] at hmem2
    subst hmem2
    exact h (by decide)

theorem foldContAux_unfold (fuel : Nat) :
    ∀ r : Str, r.length ≤ fuel →
    ((foldContAux fuel r).map stripOneSpace).flatten = r := by
  induction fuel with
  | zero =>
    intro r hr
    cases r with
    | nil => rfl
    | cons c rest => simp at hr
  | succ n ih =>
    intro r hr
    cases r with
    | nil => rfl
    | cons c rest =>
      simp only [foldContAux, List.map_cons, List.flatten_cons, stripOneSpace]
      rw [ih ((c :: rest).drop (ICAL_LINE_LENGTH - 1)) (by
        simp only [List.length_drop, List.length_cons, ICAL_LINE_LENGTH]
        simp only [List.length_cons] at hr
        omega)]
      exact List.take_append_drop _ _

theorem foldContAux_no_newline (fuel : Nat) :
    ∀ r : Str, '\n' ∉ r → ∀ l ∈ foldContAux fuel r, '\n' ∉ l := by
  induction fuel with
  | zero =>
    intro r hr l hl
    cases r <;> simp [foldContAux] at hl
  | succ n ih =>
    intro r hr l hl
    cases r with
    | nil => simp [foldContAux] at hl
    | cons c rest =>
      simp only [foldContAux, List.mem_cons] at hl
      rcases hl with rfl | hl'
      · intro hmem
        rcases List.mem_cons.mp hmem with h1 | h1
        · exact absurd h1 (by decide)
        · exact hr (List.take_subset _ _ h1)
      · exact ih _ (fun hm => hr (List.drop_subset _ _ hm)) l hl'

/-- C3 (amended): for every input text and every prefix CONTAINING NO
    NEWLINE CHARACTER, unfolding the output of `escape_and_fold_ical_text`
    — splitting on its newline characters, stripping the single leading
    space from each continuation line and concatenating — reproduces
    prefix + escaped text exactly, for any input length (at and below the
    75-character threshold included).  The escaping step removes every
    newline from the text itself, but a newline inside the prefix survives
    into the output and breaks the round trip (see the counterexample). -/
theorem C3_fold_roundtrip (text pfx : Str) (hp : '\n' ∉ pfx) :
    icalUnfold (escape_and_fold_ical_text text pfx) =
      pfx ++ icalEscape text := by
  have hfull : '\n' ∉ pfx ++ icalEscape text := by
    intro hmem
    rcases List.mem_append.mp hmem with h | h
    · exact hp h
    · exact icalEscape_no_newline text h
  have hlines : ∀ l ∈ foldLines (pfx ++ icalEscape text), '\n' ∉ l := by
    intro l hl
    unfold foldLines at hl
    by_cases hlen : (pfx ++ icalEscape text).length ≤ ICAL_LINE_LENGTH
    · rw [if_pos hlen] at hl
      rcases List.mem_singleton.mp hl with rfl
      exact hfull
    · rw [if_neg hlen] at hl
      rcases List.mem_cons.mp hl with rfl | hl'
      · intro hm; exact hfull (List.take_subset _ _ hm)
      · exact foldContAux_no_newline _ _
          (fun hm => hfull (List.drop_subset _ _ hm)) l hl'
  have hne : foldLines (pfx ++ icalEscape text) ≠ [] := by
    unfold foldLines
    by_cases hlen : (pfx ++ icalEscape text).length ≤ ICAL_LINE_LENGTH
    · rw [if_pos hlen]; simp
    · rw [if_neg hlen]; simp
  unfold escape_and_fold_ical_text icalUnfold
  rw [List.splitOn_intercalate (foldLines (pfx ++ icalEscape text)) '\n'
    hlines hne]
  unfold foldLines
  by_cases hlen : (pfx ++ icalEscape text).length ≤ ICAL_LINE_LENGTH
  · rw [if_pos hlen]
    simp
  · rw [if_neg hlen]
    simp only [foldCont]
    rw [foldContAux_unfold _ _ (le_refl _)]
    exact List.take_append_drop _ _

/-- C3 counterexample: with the prefix "A\nB" (which contains a newline)
    and empty text, the folded output is "A\nB" itself; splitting on
    newlines, stripping leading spaces and rejoining yields "AB" — not
    prefix + escaped text — so the round trip fails for this prefix. -/
theorem C3_counterexample :
    escape_and_fold_ical_text [] ['A', '\n', 'B'] = ['A', '\n', 'B'] ∧
    icalUnfold (escape_and_fold_ical_text [] ['A', '\n', 'B']) =
      ['A', 'B'] ∧
    icalUnfold (escape_and_fold_ical_text [] ['A', '\n', 'B']) ≠
      ['A', '\n', 'B'] ++ icalEscape [] := by decide

/-- Witness for `C3_fold_roundtrip`: a 200-character description line folds
    and unfolds back to itself. -/
theorem C3_witness :
    ('\n' ∉ "DESCRIPTION:".data) ∧
    icalUnfold (escape_and_fold_ical_text (List.replicate 200 'x')
      "DESCRIPTION:".data) =
      "DESCRIPTION:".data ++ icalEscape (List.replicate 200 'x') :=
  ⟨by decide, C3_fold_roundtrip _ _ (by decide)⟩

theorem takeWhile_eq_self_of_all {p : Char → Bool} :
    ∀ {l : Str}, (∀ c ∈ l, p c = true) → l.takeWhile p = l := by
  intro l h
  induction l with
  | nil => rfl
  | cons a t ih =>
    rw [List.takeWhile_cons, h a (by simp)]
    simp [ih (fun c hc => h c (by simp [hc]))]

theorem pyIsAlpha_not_space {c : Char} (h : pyIsAlpha c = true) :
    pyIsSpace c = false := by
  by_contra hs
  rw [Bool.not_eq_false] at hs
  simp only [pyIsSpace, Bool.or_eq_true, beq_iff_eq] at hs
  rcases hs with ((((rfl | rfl) | rfl) | rfl) | rfl) | rfl <;>
    exact absurd h (by decide)

theorem pyIsDigit_ne_colon {c : Char} (h : pyIsDigit c = true) : c ≠ ':' := by
  rintro rfl
  exact absurd h (by decide)

theorem pyIsAlpha_ne_colon {c : Char} (h : pyIsAlpha c = true) : c ≠ ':' := by
  rintro rfl
  exact absurd h (by decide)

theorem altTail_spec (mn : Str) (hne : mn ≠ [])
    (ha : ∀ c ∈ mn, pyIsAlpha c = true) :
    altTail (' ' :: mn) = some mn := by
  obtain ⟨m1, mrest, rfl⟩ : ∃ m1 mrest, mn = m1 :: mrest := by
    cases mn with
    | nil => exact absurd rfl hne
    | cons a t => exact ⟨a, t, rfl⟩
  have hm1s : pyIsSpace m1 = false := pyIsAlpha_not_space (ha m1 (by simp))
  have h1 : (' ' :: m1 :: mrest).takeWhile pyIsSpace =
      ' ' :: (m1 :: mrest).takeWhile pyIsSpace := by
    rw [List.takeWhile_cons]
    simp [show pyIsSpace ' ' = true from by decide]
  have h2 : (' ' :: m1 :: mrest).dropWhile pyIsSpace = m1 :: mrest := by
    rw [List.dropWhile_cons, if_pos (by decide), List.dropWhile_cons,
      if_neg (by simp [hm1s])]
  have h3 : (m1 :: mrest).takeWhile pyIsAlpha = m1 :: mrest :=
    takeWhile_eq_self_of_all ha
  simp [altTail, h1, h2, h3]

theorem altAfterDigits_spec (suf mn : Str)
    (hs : suf = [] ∨ suf = "st".data ∨ suf = "nd".data ∨ suf = "rd".data ∨
      suf = "th".data)
    (hne : mn ≠ []) (ha : ∀ c ∈ mn, pyIsAlpha c = true) :
    altAfterDigits (suf ++ ' ' :: mn) = some mn := by
  have ht := altTail_spec mn hne ha
  rcases hs with rfl | rfl | rfl | rfl | rfl
  · cases mn with
    | nil => exact absurd rfl hne
    | cons m1 mrest =>
      have hnotsuf : [' ', m1] ∉ ordinalSuffixes := by
        intro hmem
        simp only [ordinalSuffixes, List.mem_cons, List.not_mem_nil,
          or_false] at hmem
        rcases hmem with h | h | h | h <;>
          (injection h with h1 _; exact absurd h1 (by decide))
      simp only [List.nil_append, altAfterDigits]
      rw [if_neg hnotsuf]
      exact altTail_spec (m1 :: mrest) hne ha
  · show altAfterDigits ('s' :: 't' :: (' ' :: mn)) = some mn
    simp only [altAfterDigits]
    rw [if_pos (by decide), ht]
  · show altAfterDigits ('n' :: 'd' :: (' ' :: mn)) = some mn
    simp only [altAfterDigits]
    rw [if_pos (by decide), ht]
  · show altAfterDigits ('r' :: 'd' :: (' ' :: mn)) = some mn
    simp only [altAfterDigits]
    rw [if_pos (by decide), ht]
  · show altAfterDigits ('t' :: 'h' :: (' ' :: mn)) = some mn
    simp only [altAfterDigits]
    rw [if_pos (by decide), ht]

theorem altDigits_one (a c2 : Char) (rest2 : Str) (mn : Str)
    (hA : pyIsDigit a = true) (hc2 : pyIsDigit c2 = false)
    (hafter : altAfterDigits (c2 :: rest2) = some mn) :
    altDigits (a :: c2 :: rest2) = some ([a], mn) := by
  simp only [altDigits]
  rw [if_pos hA, hc2]
  simp only [Bool.false_eq_true, if_false]
  rw [hafter]

theorem altDigits_two (a b : Char) (tail : Str) (mn : Str)
    (hA : pyIsDigit a = true) (hB : pyIsDigit b = true)
    (hafter : altAfterDigits tail = some mn) :
    altDigits (a :: b :: tail) = some ([a, b], mn) := by
  simp only [altDigits]
  rw [if_pos hA, if_pos hB, hafter]

theorem altDigits_spec (ds suf mn : Str)
    (hds : ∀ c ∈ ds, pyIsDigit c = true)
    (hlen : ds.length = 1 ∨ ds.length = 2)
    (hs : suf = [] ∨ suf = "st".data ∨ suf = "nd".data ∨ suf = "rd".data ∨
      suf = "th".data)
    (hne : mn ≠ []) (ha : ∀ c ∈ mn, pyIsAlpha c = true) :
    altDigits (ds ++ suf ++ ' ' :: mn) = some (ds, mn) := by
  have hafter := altAfterDigits_spec suf mn hs hne ha
  rcases ds with _ | ⟨a, ds'⟩
  · rcases hlen with h | h <;> simp at h
  rcases ds' with _ | ⟨b, ds''⟩
  · have hA : pyIsDigit a = true := hds a (by simp)
    rcases hs with rfl | rfl | rfl | rfl | rfl
    · exact altDigits_one a ' ' mn mn hA (by decide) hafter
    · exact altDigits_one a 's' ('t' :: ' ' :: mn) mn hA (by decide) hafter
    · exact altDigits_one a 'n' ('d' :: ' ' :: mn) mn hA (by decide) hafter
    · exact altDigits_one a 'r' ('d' :: ' ' :: mn) mn hA (by decide) hafter
    · exact altDigits_one a 't' ('h' :: ' ' :: mn) mn hA (by decide) hafter
  · have hl0 : ds''.length = 0 := by
      rcases hlen with h | h <;> (simp only [List.length_cons] at h; omega)
    obtain rfl := List.length_eq_zero.mp hl0
    exact altDigits_two a b (suf ++ ' ' :: mn) mn (hds a (by simp))
      (hds b (by simp)) hafter

theorem altMatchAt_append (rest : Str) :
    altMatchAt (altLit ++ rest) = altDigits rest := by
  unfold altMatchAt
  rw [if_pos ( List.isPrefixOf_iff_prefix.mpr (List.prefix_append altLit rest)),
    List.drop_left]

theorem altSearch_of_matchAt (s : Str) (r : Str × Str)
    (h : altMatchAt s = some r) : altSearch s = some r := by
  cases s with
  | nil => simp [altSearch, h]
  | cons c rest => simp [altSearch, h]

theorem dateMatchAt_colon (s : Str) (h : dateMatchAt s ≠ none) : ':' ∈ s := by
  unfold dateMatchAt at h
  by_cases hp : dateLit.isPrefixOf s = true
  · exact ( List.isPrefixOf_iff_prefix.mp hp).subset (by decide)
  · rw [if_neg hp] at h
    exact absurd rfl h

theorem dateSearch_of_no_colon (s : Str) (h : ':' ∉ s) :
    dateSearch s = none := by
  induction s with
  | nil => decide
  | cons c rest ih =>
    have h1 : dateMatchAt (c :: rest) = none := by
      by_contra hne
      exact h (dateMatchAt_colon _ hne)
    simp only [dateSearch, h1]
    exact ih (fun hm => h (List.mem_cons_of_mem _ hm))

theorem renderAlt_no_colon (ds suf mn : Str)
    (hds : ∀ c ∈ ds, pyIsDigit c = true)
    (hs : suf = [] ∨ suf = "st".data ∨ suf = "nd".data ∨ suf = "rd".data ∨
      suf = "th".data)
    (ha : ∀ c ∈ mn, pyIsAlpha c = true) :
    ':' ∉ altLit ++ ds ++ suf ++ ' ' :: mn := by
  intro hmem
  rcases List.mem_append.mp hmem with h1 | h2
  swap
  · rcases List.mem_cons.mp h2 with h7 | h8
    · exact absurd h7 (by decide)
    · exact pyIsAlpha_ne_colon (ha ':' h8) rfl
  rcases List.mem_append.mp h1 with h3 | h4
  swap
  · rcases hs with rfl | rfl | rfl | rfl | rfl <;> exact absurd h4 (by decide)
  rcases List.mem_append.mp h3 with h5 | h6
  · exact absurd h5 (by decide)
  · exact pyIsDigit_ne_colon (hds ':' h6) rfl

theorem parse_date_renderAlt (ds suf mn : Str) (today : PyDate) (month : Nat)
    (hds : ∀ c ∈ ds, pyIsDigit c = true)
    (hlen : ds.length = 1 ∨ ds.length = 2)
    (hs : suf = [] ∨ suf = "st".data ∨ suf = "nd".data ∨ suf = "rd".data ∨
      suf = "th".data)
    (hne : mn ≠ []) (ha : ∀ c ∈ mn, pyIsAlpha c = true)
    (hm : pyMonthLookup mn = some month) :
    parse_date (altLit ++ ds ++ suf ++ ' ' :: mn) today =
      match mkDate today.year month (natOfDigits ds) with
      | none => none
      | some parsed =>
        if pdLt parsed today then
          mkDate (today.year + 1) month (natOfDigits ds)
        else some parsed := by
  have hassoc : altLit ++ ds ++ suf ++ ' ' :: mn =
      altLit ++ (ds ++ suf ++ ' ' :: mn) := by
    simp [List.append_assoc]
  rw [hassoc]
  have hnocolon : ':' ∉ altLit ++ (ds ++ suf ++ ' ' :: mn) := by
    rw [← hassoc]
    exact renderAlt_no_colon ds suf mn hds hs ha
  have hdnone : dateSearch (altLit ++ (ds ++ suf ++ ' ' :: mn)) = none :=
    dateSearch_of_no_colon _ hnocolon
  have halt : altSearch (altLit ++ (ds ++ suf ++ ' ' :: mn)) =
      some (ds, mn) :=
    altSearch_of_matchAt _ _
      (by rw [altMatchAt_append]
          exact altDigits_spec ds suf mn hds hlen hs hne ha)
  simp only [parse_date, hdnone, halt, hm]
  cases hmk : mkDate today.year month (natOfDigits ds) with
  | none => simp
  | some parsed =>
    simp only [Option.isNone_none, Bool.and_true]

/-- C4 (amended): for every label of the year-omitted grammar
    "Expected at WTW Cinemas from the <day><ordinal-suffix?> <MonthName>"
    with a recognized full month name whose day and month form a valid date
    in the current year, `parse_date` assumes the current year; if the
    resulting date is today or later it is returned unchanged, and if it is
    strictly before today the same day and month are returned with the year
    advanced by one PROVIDED that is a valid calendar date — when it is not
    (29 February rolling into a non-leap year), the guarded construction
    yields `None` instead (see the counterexample and C9). -/
theorem C4_year_inference (ds suf mn : Str) (today : PyDate) (month : Nat)
    (hds : ∀ c ∈ ds, pyIsDigit c = true)
    (hlen : ds.length = 1 ∨ ds.length = 2)
    (hs : suf = [] ∨ suf = "st".data ∨ suf = "nd".data ∨ suf = "rd".data ∨
      suf = "th".data)
    (hne : mn ≠ []) (ha : ∀ c ∈ mn, pyIsAlpha c = true)
    (hm : pyMonthLookup mn = some month)
    (hv : validDate today.year month (natOfDigits ds) = true) :
    parse_date (altLit ++ ds ++ suf ++ ' ' :: mn) today =
      if pdLt ⟨today.year, month, natOfDigits ds⟩ today then
        mkDate (today.year + 1) month (natOfDigits ds)
      else some ⟨today.year, month, natOfDigits ds⟩ := by
  rw [parse_date_renderAlt ds suf mn today month hds hlen hs hne ha hm]
  have hmk : mkDate today.year month (natOfDigits ds) =
      some ⟨today.year, month, natOfDigits ds⟩ := by
    rw [mkDate, if_pos hv]
  rw [hmk]

/-- C4 counterexample: the label "Expected at WTW Cinemas from the 29th
    February", with today = 1 March 2024 (2024 is a leap year, so 29
    February 2024 is a valid date strictly before today), does NOT produce
    the same day and month with the year advanced by one — 29 February 2025
    does not exist, and `parse_date` returns `None`. -/
theorem C4_counterexample :
    altSearch "Expected at WTW Cinemas from the 29th February".data =
      some ("29".data, "February".data) ∧
    dateSearch "Expected at WTW Cinemas from the 29th February".data =
      none ∧
    pyMonthLookup "February".data = some 2 ∧
    validDate 2024 2 29 = true ∧
    pdLt ⟨2024, 2, 29⟩ ⟨2024, 3, 1⟩ = true ∧
    parse_date "Expected at WTW Cinemas from the 29th February".data
      ⟨2024, 3, 1⟩ = none := by
  decide

/-- Witness for `C4_year_inference`: "10th October" seen on 1 November 2025
    rolls forward to 10 October 2026. -/
theorem C4_witness :
    parse_date (altLit ++ "10".data ++ "th".data ++ ' ' :: "October".data)
      ⟨2025, 11, 1⟩ = some ⟨2026, 10, 10⟩ := by
  rw [C4_year_inference "10".data "th".data "October".data ⟨2025, 11, 1⟩ 10
    (by decide) (Or.inr rfl)
    (Or.inr (Or.inr (Or.inr (Or.inr rfl))))
    (by decide) (by decide) (by decide) (by decide)]
  decide

/-- C9 (confirmed): for a year-omitted label whose current-year date is
    valid but strictly before today, and whose roll-forward target is not a
    valid calendar date in the next year, `parse_date` returns `None`
    rather than raising — the year+1 date construction sits inside the
    guarded branch, so the error path is total. -/
theorem C9_rollforward_total (ds suf mn : Str) (today : PyDate) (month : Nat)
    (hds : ∀ c ∈ ds, pyIsDigit c = true)
    (hlen : ds.length = 1 ∨ ds.length = 2)
    (hs : suf = [] ∨ suf = "st".data ∨ suf = "nd".data ∨ suf = "rd".data ∨
      suf = "th".data)
    (hne : mn ≠ []) (ha : ∀ c ∈ mn, pyIsAlpha c = true)
    (hm : pyMonthLookup mn = some month)
    (hv : validDate today.year month (natOfDigits ds) = true)
    (hpast : pdLt ⟨today.year, month, natOfDigits ds⟩ today = true)
    (hinv : validDate (today.year + 1) month (natOfDigits ds) = false) :
    parse_date (altLit ++ ds ++ suf ++ ' ' :: mn) today = none := by
  rw [parse_date_renderAlt ds suf mn today month hds hlen hs hne ha hm]
  have hmk : mkDate today.year month (natOfDigits ds) =
      some ⟨today.year, month, natOfDigits ds⟩ := by
    rw [mkDate, if_pos hv]
  rw [hmk]
  simp only [hpast, if_true]
  rw [mkDate, if_neg (by simp [hinv])]

/-- Witness for `C9_rollforward_total`: "29th February" seen on 1 March
    2024 yields `None` (29 February 2025 does not exist). -/
theorem C9_witness :
    parse_date (altLit ++ "29".data ++ "th".data ++ ' ' :: "February".data)
      ⟨2024, 3, 1⟩ = none :=
  C9_rollforward_total "29".data "th".data "February".data ⟨2024, 3, 1⟩ 2
    (by decide) (Or.inr rfl)
    (Or.inr (Or.inr (Or.inr (Or.inr rfl))))
    (by decide) (by decide) (by decide) (by decide) (by decide) (by decide)
